import Mathlib

/-!
Verification development for the Twitter-Backend server (src/server.js).

The state of the MongoDB collections is embedded as a Store holding the
Tweet, Comment and User documents.  Each Express route handler that the
claims refer to is embedded as a pure function from a Store (plus the
request parameters and the store-assigned fresh identifiers) to the new
Store paired with an abstract response value.

Field names follow the mongoose schema used by the server:
isRetweeted plays the role the specification calls isRetweetCopy,
retweetedFrom the role of originalPostId, retweets the role of
retweetUserIds, comments the role of commentIds, and postedBy the role
of authorId.  Documents are looked up by their human-readable
postedTweetTime / postedCommentTime key, exactly as the server does.
Mongo object ids and the time keys are both modelled as strings.
-/

structure Tweet where
  id : String
  postedTweetTime : String
  content : String
  postedBy : String
  likes : List String
  retweets : List String
  tag : Option String
  image : Option String
  comments : List String
  isEdited : Bool
  isRetweeted : Bool
  retweetedFrom : Option String
  likeTweetBtn : String
  retweetBtn : String
  createdAt : Nat
deriving DecidableEq

structure Comment where
  id : String
  postedCommentTime : String
  content : String
  postedBy : Option String
  likes : List String
  isEdited : Bool
  likeCommentBtn : String
deriving DecidableEq

structure User where
  id : String
  username : String
  tweets : List String
deriving DecidableEq

structure Store where
  tweets : List Tweet
  comments : List Comment
  users : List User
deriving DecidableEq

/-- Lookup of a tweet by its public postedTweetTime key, as in
Tweet.findOne applied to a postedTweetTime filter. -/
def findTweetByTime (s : Store) (k : String) : Option Tweet :=
  s.tweets.find? (fun t => t.postedTweetTime == k)

/-- Lookup of a tweet by its store id, as in Tweet.findById. -/
def findTweetById (s : Store) (i : String) : Option Tweet :=
  s.tweets.find? (fun t => t.id == i)

/-- Write a tweet document by id.  Mongo assigns ids uniquely, so the
findByIdAndUpdate and save operations of the server are embedded as a
map that rewrites the documents carrying that id. -/
def updateTweetById (s : Store) (i : String) (f : Tweet → Tweet) : Store :=
  { s with tweets := s.tweets.map (fun t => if t.id == i then f t else t) }

/-- Bulk update, as in Tweet.updateMany with a filter predicate. -/
def updateTweetsWhere (s : Store) (p : Tweet → Bool) (f : Tweet → Tweet) : Store :=
  { s with tweets := s.tweets.map (fun t => if p t then f t else t) }

/-- Lookup of a user by username, as in User.findOne. -/
def findUserByName (s : Store) (n : String) : Option User :=
  s.users.find? (fun u => u.username == n)

/-- The findOne-then-save pattern on users: the first user matching the
username is fetched, mutated in memory and written back by id.  When no
user matches, the server skips the write, so the store is unchanged. -/
def updateUserByName (s : Store) (n : String) (f : User → User) : Store :=
  match s.users.find? (fun u => u.username == n) with
  | none => s
  | some u => { s with users := s.users.map (fun x => if x.id == u.id then f u else x) }

/-- Lookup of a comment by its public postedCommentTime key. -/
def findCommentByTime (s : Store) (k : String) : Option Comment :=
  s.comments.find? (fun c => c.postedCommentTime == k)

/-- The set-membership flip both like endpoints perform on a likes
array: splice out the username found by indexOf, or push it at the
end. -/
def toggleLike (likes : List String) (u : String) : List String :=
  if likes.contains u then likes.erase u else likes ++ [u]

/-- The whitespace trim the server applies to edit content, as in the
javascript trim method: leading and trailing whitespace characters are
removed. -/
def jsTrim (s : String) : String :=
  ⟨((s.data.dropWhile Char.isWhitespace).reverse.dropWhile Char.isWhitespace).reverse⟩

inductive RetweetResult
  | notFound
  | cannotRetweet
  | retweeted (count : Nat)
  | unretweeted (count : Nat)
  | noResponse
deriving DecidableEq

/-- The document built by Tweet.create in the retweet branch: content,
author, likes, comments and button state are snapshotted from the
target tweet, the requesting username is appended to the snapshotted
retweets array, and retweetedFrom points at the resolved original. -/
def mkRetweetCopy (tweet : Tweet) (userName : String) (originalTweetId : String)
    (freshId newTime : String) (newCreatedAt : Nat) : Tweet :=
  { id := freshId
    postedTweetTime := newTime
    content := tweet.content
    postedBy := tweet.postedBy
    likes := tweet.likes
    retweets := tweet.retweets ++ [userName]
    tag := tweet.tag
    image := tweet.image
    comments := tweet.comments
    isEdited := tweet.isEdited
    isRetweeted := true
    retweetedFrom := some originalTweetId
    likeTweetBtn := tweet.likeTweetBtn
    retweetBtn := "green"
    createdAt := newCreatedAt }

/-- POST /post/:userName/retweet/:tweetId.  userName is the route
parameter, userId the id carried by the access token.  freshId, newTime
and newCreatedAt stand for the store-assigned identity of a document
created by this request. -/
def retweetHandler (s : Store) (userName userId tweetIdParam : String)
    (freshId newTime : String) (newCreatedAt : Nat) : Store × RetweetResult :=
  match findTweetByTime s tweetIdParam with
  | none => (s, .notFound)
  | some tweet =>
    let originalTweetId := tweet.retweetedFrom.getD tweet.id
    if tweet.retweets.contains userName then
      match s.tweets.find?
          (fun t => t.retweetedFrom == some originalTweetId && t.postedBy == userId) with
      | none => (s, .noResponse)
      | some retweetedTweet =>
        let remaining := s.tweets.eraseP
          (fun t => t.retweetedFrom == some originalTweetId && t.postedBy == userId)
        let s1 : Store := { s with tweets := remaining }
        let s2 := updateTweetById s1 originalTweetId
          (fun t => { t with retweets := t.retweets.filter (fun x => x != userName) })
        let s3 := updateUserByName s2 userName
          (fun u => { u with tweets := u.tweets.filter (fun i => i != retweetedTweet.id) })
        (s3, .unretweeted (tweet.retweets.length - 1))
    else
      if tweet.isRetweeted then (s, .cannotRetweet)
      else
        let newTweet := mkRetweetCopy tweet userName originalTweetId freshId newTime newCreatedAt
        let s1 : Store := { s with tweets := s.tweets ++ [newTweet] }
        let s2 := updateUserByName s1 userName (fun u => { u with tweets := freshId :: u.tweets })
        let s3 := updateTweetById s2 originalTweetId
          (fun t => { t with retweets := t.retweets ++ [userName] })
        (s3, .retweeted (tweet.retweets.length + 1))

inductive LikeResult
  | notFound
  | ok (likeCount : Nat) (btn : String)
deriving DecidableEq

/-- The in-memory state of the target tweet after the like flip and
before the save: likes toggled, button colour set accordingly. -/
def likedTweetDoc (tweet : Tweet) (userName : String) : Tweet :=
  { tweet with
    likes := toggleLike tweet.likes userName
    likeTweetBtn := if tweet.likes.contains userName then "black" else "deeppink" }

/-- POST /post/:userName/like/:tweetId.  The membership flip is applied
to the likes array of the tweet the request targets; the resulting
array is then written to the resolved original and to every document
whose retweetedFrom points at it. -/
def likeTweetHandler (s : Store) (userName tweetIdParam : String) : Store × LikeResult :=
  match findTweetByTime s tweetIdParam with
  | none => (s, .notFound)
  | some tweet =>
    let likes1 := toggleLike tweet.likes userName
    let tweet1 : Tweet := likedTweetDoc tweet userName
    let s1 := updateTweetById s tweet.id (fun _ => tweet1)
    let tweetIdToUpdate := tweet1.retweetedFrom.getD tweet1.id
    let s2 := updateTweetsWhere s1
      (fun t => t.id == tweetIdToUpdate || t.retweetedFrom == some tweetIdToUpdate)
      (fun t => { t with likes := likes1 })
    (s2, .ok likes1.length tweet1.likeTweetBtn)

/-- POST /comment/:userName/like/:commentId.  Same membership flip on a
comment document; no propagation step exists for comments. -/
def likeCommentHandler (s : Store) (userName commentIdParam : String) : Store × LikeResult :=
  match findCommentByTime s commentIdParam with
  | none => (s, .notFound)
  | some comment =>
    let likes1 := toggleLike comment.likes userName
    let btn1 := if comment.likes.contains userName then "black" else "deeppink"
    let newComments := s.comments.map
      (fun c => if c.id == comment.id then { c with likes := likes1, likeCommentBtn := btn1 } else c)
    let s1 : Store := { s with comments := newComments }
    (s1, .ok likes1.length btn1)

inductive ComposeCommentResult
  | tweetNotFound
  | originalNotFound
  | userNotFound
  | ok (commentCount : Nat)
deriving DecidableEq

/-- POST /feed/comment/:tweetId.  The comment document is created
before any lookup.  The target tweet is resolved to its original via
retweetedFrom, the new comment id is unshifted onto the comments list
of the original, and that list is written to the original and to all
documents whose retweetedFrom points at it. -/
def composeCommentHandler (s : Store) (username tweetIdParam content freshCId newTime : String) :
    Store × ComposeCommentResult :=
  let newComment : Comment :=
    { id := freshCId, postedCommentTime := newTime, content := content,
      postedBy := none, likes := [], isEdited := false, likeCommentBtn := "black" }
  let s0 : Store := { s with comments := s.comments ++ [newComment] }
  match findTweetByTime s0 tweetIdParam with
  | none => (s0, .tweetNotFound)
  | some tweet =>
    let originalTweetId := tweet.retweetedFrom.getD tweet.id
    match findTweetById s0 originalTweetId with
    | none => (s0, .originalNotFound)
    | some originalTweet =>
      match findUserByName s0 username with
      | none => (s0, .userNotFound)
      | some user =>
        let savedComments := s0.comments.map
          (fun c => if c.id == freshCId then { c with postedBy := some user.id } else c)
        let s1 : Store := { s0 with comments := savedComments }
        let newComments := freshCId :: originalTweet.comments
        let s2 := updateTweetById s1 originalTweetId (fun t => { t with comments := newComments })
        let s3 := updateTweetsWhere s2
          (fun t => t.id == originalTweetId || t.retweetedFrom == some originalTweetId)
          (fun t => { t with comments := newComments })
        (s3, .ok newComments.length)

inductive EditResult
  | emptyContent
  | notFound
  | originalNotFound
  | forbidden
  | ok
deriving DecidableEq

/-- POST /editTweet/:tweetId.  A missing, empty or whitespace-only body
content is rejected before any store access.  Otherwise the target is
resolved to its original, the owner check runs against the original,
the content edit is applied to the original, and content plus isEdited
are written to every document whose retweetedFrom points at it. -/
def editTweetHandler (s : Store) (userId tweetIdParam : String) (content : Option String) :
    Store × EditResult :=
  if jsTrim (content.getD "") = "" then (s, .emptyContent)
  else
    let c := content.getD ""
    match findTweetByTime s tweetIdParam with
    | none => (s, .notFound)
    | some tweet =>
      let originalTweetId := tweet.retweetedFrom.getD tweet.id
      match findTweetById s originalTweetId with
      | none => (s, .originalNotFound)
      | some originalTweet =>
        if originalTweet.postedBy == userId then
          let s1 := updateTweetById s originalTweetId
            (fun t => { t with content := c, isEdited := true })
          let s2 := updateTweetsWhere s1 (fun t => t.retweetedFrom == some originalTweetId)
            (fun t => { t with content := c, isEdited := true })
          (s2, .ok)
        else (s, .forbidden)

/-- POST /comment/edit/:commentId, with the same empty-content guard. -/
def editCommentHandler (s : Store) (commentIdParam : String) (content : Option String) :
    Store × EditResult :=
  if jsTrim (content.getD "") = "" then (s, .emptyContent)
  else
    match findCommentByTime s commentIdParam with
    | none => (s, .notFound)
    | some comment =>
      let editedComments := s.comments.map
        (fun x => if x.id == comment.id then
          { x with content := content.getD "", isEdited := true } else x)
      let s1 : Store := { s with comments := editedComments }
      (s1, .ok)

inductive DeleteResult
  | notFound
  | ok
deriving DecidableEq

/-- POST /comment/delete/:commentId.  The comment document matching the
postedCommentTime key is deleted; the follow-up updateMany pulls the
route parameter value, i.e. the time key itself, out of the comments
arrays of the tweets, although those arrays hold the record ids of the
comments. -/
def deleteCommentHandler (s : Store) (commentIdParam : String) : Store × DeleteResult :=
  match findCommentByTime s commentIdParam with
  | none => (s, .notFound)
  | some _ =>
    let remaining := s.comments.eraseP (fun c => c.postedCommentTime == commentIdParam)
    let s1 : Store := { s with comments := remaining }
    let pulledTweets := s1.tweets.map
      (fun t => if t.comments.contains commentIdParam then
        { t with comments := t.comments.filter (fun x => x != commentIdParam) } else t)
    let s2 : Store := { s1 with tweets := pulledTweets }
    (s2, .ok)

/-- Newest-first comparison used by the feed sort on createdAt. -/
def tweetNewer (a b : Tweet) : Prop := b.createdAt ≤ a.createdAt

instance : DecidableRel tweetNewer := fun a b => Nat.decLe b.createdAt a.createdAt

instance : IsTotal Tweet tweetNewer := ⟨fun a b => Nat.le_total b.createdAt a.createdAt⟩

instance : IsTrans Tweet tweetNewer := ⟨fun _ _ _ h1 h2 => Nat.le_trans h2 h1⟩

/-- Sorting by creation time descending, as in sort createdAt minus
one. -/
def sortNewestFirst (l : List Tweet) : List Tweet := List.insertionSort tweetNewer l

/-- GET /feed: the non-retweet tweets, newest first, with the
caller-supplied skip and a limit of 20. -/
def feedHandler (s : Store) (skip : Nat) : List Tweet :=
  List.take 20 (List.drop skip (sortNewestFirst (s.tweets.filter (fun t => !t.isRetweeted))))

/-- GET /topic/:tag: like the feed, additionally filtered by tag. -/
def topicHandler (s : Store) (tag : String) (skip : Nat) : List Tweet :=
  List.take 20 (List.drop skip (sortNewestFirst
    (s.tweets.filter (fun t => !t.isRetweeted && t.tag == some tag))))

/-!
Concrete stores used by the counterexamples, the code-bug evaluations
and the witnesses below.  The scenario is the one from the spec:
alice authors an original tweet, bob reposts it.
-/

/-- The original tweet of alice, before anyone retweeted it. -/
def tweetO0 : Tweet :=
  { id := "t1", postedTweetTime := "p1", content := "hello", postedBy := "ua",
    likes := [], retweets := [], tag := none, image := none, comments := [],
    isEdited := false, isRetweeted := false, retweetedFrom := none,
    likeTweetBtn := "black", retweetBtn := "black", createdAt := 1 }

/-- alice before the retweet. -/
def userA0 : User := { id := "ua", username := "alice", tweets := ["t1"] }

/-- bob before the retweet. -/
def userB0 : User := { id := "ub", username := "bob", tweets := [] }

/-- Store before the retweet by bob. -/
def store0 : Store := { tweets := [tweetO0], comments := [], users := [userA0, userB0] }

/-- The original tweet after the retweet by bob. -/
def tweetOW : Tweet := { tweetO0 with retweets := ["bob"] }

/-- The retweet copy of bob: snapshot of the original, authored by the
server with postedBy taken from the original. -/
def tweetCW : Tweet :=
  { id := "t2", postedTweetTime := "p2", content := "hello", postedBy := "ua",
    likes := [], retweets := ["bob"], tag := none, image := none, comments := [],
    isEdited := false, isRetweeted := true, retweetedFrom := some "t1",
    likeTweetBtn := "black", retweetBtn := "green", createdAt := 2 }

/-- bob after the retweet. -/
def userBW : User := { id := "ub", username := "bob", tweets := ["t2"] }

/-- Store after the retweet by bob: one original, one copy. -/
def storeW : Store := { tweets := [tweetOW, tweetCW], comments := [], users := [userA0, userBW] }

/-- Original and copy after an edit of the original to new content. -/
def tweetOWedit : Tweet := { tweetOW with content := "new", isEdited := true }

/-- The copy after propagation of the content edit. -/
def tweetCWedit : Tweet := { tweetCW with content := "new", isEdited := true }

/-- The original after the like propagation writes the likes of the
target. -/
def tweetOWlike : Tweet := { tweetOW with likes := ["bob"] }

/-- The copy after its own like flip and the propagation. -/
def tweetCWlike : Tweet := { tweetCW with likes := ["bob"], likeTweetBtn := "deeppink" }

/-- The original after a comment attach. -/
def tweetOWcmt : Tweet := { tweetOW with comments := ["c9"] }

/-- The copy after propagation of the comment attach. -/
def tweetCWcmt : Tweet := { tweetCW with comments := ["c9"] }

/-- Store for the like counterexample: the copy is stale, its likes
array lost the alice entry the original holds. -/
def tweetO3 : Tweet := { tweetO0 with likes := ["alice"], retweets := ["bob"] }

/-- The stale copy in the like counterexample. -/
def tweetC3 : Tweet := { tweetCW with likes := [] }

/-- Store with an original liked by alice and a stale copy. -/
def storeC3 : Store := { tweets := [tweetO3, tweetC3], comments := [], users := [userA0, userBW] }

/-- Tweet holding one comment record id in the deletion scenario. -/
def tweetP6 : Tweet := { tweetO0 with comments := ["cid1"] }

/-- The comment record in the deletion scenario: record id cid1,
public time key ct1. -/
def comment6 : Comment :=
  { id := "cid1", postedCommentTime := "ct1", content := "hey", postedBy := some "ua",
    likes := [], isEdited := false, likeCommentBtn := "black" }

/-- Store for the comment deletion scenario. -/
def storeC6 : Store := { tweets := [tweetP6], comments := [comment6], users := [userA0] }

/-- The empty store. -/
def storeEmpty : Store := { tweets := [], comments := [], users := [] }

/-- First step of the retweet and unretweet pair of bob on the original
of alice. -/
def storePair1 : Store := (retweetHandler store0 "bob" "ub" "p1" "t2" "p2" 2).1

/-- Second step: the same endpoint called again, which takes the
unretweet branch. -/
def storePairOut : Store × RetweetResult := retweetHandler storePair1 "bob" "ub" "p1" "t3" "p3" 3

/-!  Helper lemmas about lookups after writes. -/

theorem find?_map_congr {α : Type} (q : α → Bool) (g : α → α)
    (hg : ∀ a, q (g a) = q a) :
    ∀ l : List α, (l.map g).find? q = (l.find? q).map g := by
  intro l
  induction l with
  | nil => rfl
  | cons a as ih =>
    cases h : q a with
    | true =>
      rw [List.map_cons, List.find?_cons_of_pos _ (by rw [hg]; exact h),
        List.find?_cons_of_pos _ h]
      rfl
    | false =>
      rw [List.map_cons, List.find?_cons_of_neg _ (by rw [hg, h]; exact Bool.false_ne_true),
        List.find?_cons_of_neg _ (by rw [h]; exact Bool.false_ne_true), ih]

theorem find?_append_left_none {α : Type} (q : α → Bool) (l1 l2 : List α)
    (h : l1.find? q = none) : (l1 ++ l2).find? q = l2.find? q := by
  rw [List.find?_append, h, Option.none_or]

theorem findUser_after_update (users : List User) (n : String) (u : User) (f : User → User)
    (hf : ∀ v, (f v).username = v.username)
    (hu : users.find? (fun x => x.username == n) = some u) :
    (users.map (fun x => if x.id == u.id then f u else x)).find? (fun x => x.username == n)
      = some (f u) := by
  induction users with
  | nil => simp at hu
  | cons a as ih =>
    by_cases ha : a.username = n
    · have hau : u = a := by
        rw [List.find?_cons_of_pos _ (by simp [ha])] at hu
        exact (Option.some_inj.mp hu).symm
      subst hau
      rw [List.map_cons, if_pos (by simp), List.find?_cons_of_pos _ (by simp [hf, ha])]
    · have hu' : as.find? (fun x => x.username == n) = some u := by
        rwa [List.find?_cons_of_neg _ (by simp [ha])] at hu
      have hun : u.username = n := by
        have := List.find?_some hu'
        simpa using this
      by_cases hid : a.id = u.id
      · rw [List.map_cons, if_pos (by simp [hid]),
          List.find?_cons_of_pos _ (by simp [hf, hun])]
      · rw [List.map_cons, if_neg (by simp [hid]),
          List.find?_cons_of_neg _ (by simp [ha]), ih hu']

/-!  Small facts about toggleLike. -/

theorem contains_eq_true_of_mem {l : List String} {u : String} (h : u ∈ l) :
    l.contains u = true := by
  simpa [List.contains, List.elem_iff] using h

theorem contains_eq_false_of_not_mem {l : List String} {u : String} (h : u ∉ l) :
    l.contains u = false := by
  cases hc : l.contains u with
  | false => rfl
  | true =>
    exact absurd (by simpa [List.contains, List.elem_iff] using hc) h

theorem erase_append_singleton_perm {l : List String} {u : String} (hm : u ∈ l) :
    (l.erase u ++ [u]).Perm l := by
  induction l with
  | nil => cases hm
  | cons a as ih =>
    by_cases ha : a = u
    · subst ha
      rw [List.erase_cons_head]
      exact List.perm_append_singleton a as
    · rw [List.erase_cons_tail (by simpa using ha)]
      have hm' : u ∈ as := by
        cases hm with
        | head => exact absurd rfl ha
        | tail _ h => exact h
      simpa using (ih hm').cons a

/-- Claim C5: the membership flip both like endpoints apply, performed
twice in succession with the same username, returns a likes array with
the same members and the same length as before, hence the same likes
set and the same reported likeCount.  The count hypothesis encodes the
data-model invariant that likes is a set: a username occurs at most
once, which every handler writing likes arrays preserves because a
push is guarded by an indexOf check. -/
theorem toggleLike_twice_restores (l : List String) (u : String) (h : l.count u ≤ 1) :
    (toggleLike (toggleLike l u) u).Perm l
    ∧ (toggleLike (toggleLike l u) u).length = l.length := by
  have main : (toggleLike (toggleLike l u) u).Perm l := by
    by_cases hm : u ∈ l
    · have hc : l.contains u = true := contains_eq_true_of_mem hm
      have h1 : toggleLike l u = l.erase u := by
        unfold toggleLike
        rw [hc]
        rfl
      have hcount : (l.erase u).count u = 0 := by
        rw [List.count_erase_self]
        omega
      have hnm : u ∉ l.erase u := List.count_eq_zero.mp hcount
      have hc2 : (l.erase u).contains u = false := contains_eq_false_of_not_mem hnm
      have h2 : toggleLike (l.erase u) u = l.erase u ++ [u] := by
        unfold toggleLike
        rw [hc2]
        rfl
      rw [h1, h2]
      exact erase_append_singleton_perm hm
    · have hc : l.contains u = false := contains_eq_false_of_not_mem hm
      have h1 : toggleLike l u = l ++ [u] := by
        unfold toggleLike
        rw [hc]
        rfl
      have hc2 : (l ++ [u]).contains u = true :=
        contains_eq_true_of_mem (by simp)
      have h2 : toggleLike (l ++ [u]) u = l := by
        unfold toggleLike
        rw [hc2, if_pos rfl, List.erase_append_right _ hm, List.erase_cons_head,
          List.append_nil]
      rw [h1, h2]
  exact ⟨main, main.length_eq⟩

/-- Witness for claim C5 at a concrete likes array. -/
theorem toggleLike_twice_restores_witness :
    (toggleLike (toggleLike ["alice"] "alice") "alice").Perm ["alice"]
    ∧ (toggleLike (toggleLike ["alice"] "alice") "alice").length = (["alice"] : List String).length :=
  toggleLike_twice_restores ["alice"] "alice" (by decide)

/-- Claim C1 counterexample: the store holds the retweet copy of bob
(tweetCW, isRetweeted true) whose snapshotted retweets array contains
bob.  A retweet request by bob targeting the copy directly does not
fail with the 400 cannot-retweet response: because bob appears in the
retweets array of the copy, the handler takes the unretweet branch,
finds no document with matching retweetedFrom and postedBy, and falls
through without sending any response.  This refutes the claim that the
request fails with InvalidOperation regardless of whether the
requesting user appears in the retweets of the copy. -/
theorem retweet_on_copy_member_counterexample :
    retweetHandler storeW "bob" "ub" "p2" "t9" "p9" 9 = (storeW, RetweetResult.noResponse)
    ∧ tweetCW.isRetweeted = true
    ∧ tweetCW.retweets.contains "bob" = true
    ∧ RetweetResult.noResponse ≠ RetweetResult.cannotRetweet := by decide

/-- Claim C1 as amended: when the requesting user does not appear in
the retweets array of the targeted retweet copy, the request fails
with the 400 cannot-retweet response and the store is unchanged, so no
post is created. -/
theorem retweet_on_copy_rejected_for_nonmember
    (s : Store) (userName userId tid freshId newTime : String) (nca : Nat) (tweet : Tweet)
    (h1 : findTweetByTime s tid = some tweet)
    (h2 : tweet.retweets.contains userName = false)
    (h3 : tweet.isRetweeted = true) :
    retweetHandler s userName userId tid freshId newTime nca = (s, RetweetResult.cannotRetweet) := by
  have h2m : userName ∉ tweet.retweets := by
    intro hmem
    rw [contains_eq_true_of_mem hmem] at h2
    cases h2
  unfold retweetHandler
  rw [h1]
  simp [h2m, h3]

/-- Witness for the amended claim C1: carol, who never retweeted,
targets the copy of bob directly and receives the 400 response. -/
theorem retweet_on_copy_rejected_witness :
    retweetHandler storeW "carol" "uc" "p2" "t9" "p9" 9 = (storeW, RetweetResult.cannotRetweet) :=
  retweet_on_copy_rejected_for_nonmember storeW "carol" "uc" "p2" "t9" "p9" 9 tweetCW
    (by decide) (by decide) (by decide)

/-- Claim C2, evaluated at the failing input: bob retweets the original
of alice, then immediately calls the endpoint again (the unretweet
branch).  Because the copy was created with postedBy equal to the id
of alice, the unretweet lookup by postedBy equal to the id of bob finds
nothing: the pair of calls leaves bob inside the retweets array of the
original and leaves the copy in the post list of bob, instead of
restoring both to their values before the pair. -/
theorem retweet_unretweet_pair_leaves_residue :
    (findTweetById store0 "t1").map Tweet.retweets = some []
    ∧ (findUserByName store0 "bob").map User.tweets = some []
    ∧ (retweetHandler store0 "bob" "ub" "p1" "t2" "p2" 2).2 = RetweetResult.retweeted 1
    ∧ storePairOut.2 = RetweetResult.noResponse
    ∧ (findTweetById storePairOut.1 "t1").map Tweet.retweets = some ["bob"]
    ∧ (findUserByName storePairOut.1 "bob").map User.tweets = some ["t2"] := by decide

/-- Claim C6, evaluated at the failing input: deleting the comment with
record id cid1 and public time key ct1 removes the comment document,
but the follow-up pull filters the comments arrays by the time key ct1
while those arrays hold record ids, so the dangling id cid1 is still
inside the comments of the owning tweet after the deletion. -/
theorem comment_delete_leaves_dangling_id :
    comment6.id = "cid1"
    ∧ comment6.postedCommentTime = "ct1"
    ∧ (findTweetById storeC6 "t1").map Tweet.comments = some ["cid1"]
    ∧ (deleteCommentHandler storeC6 "ct1").2 = DeleteResult.ok
    ∧ (deleteCommentHandler storeC6 "ct1").1.comments = []
    ∧ (findTweetById (deleteCommentHandler storeC6 "ct1").1 "t1").map Tweet.comments
        = some ["cid1"] := by decide

/-- Claim C7: a post edit or comment edit whose content is absent,
empty or whitespace-only is rejected with the 400 empty-content
response before any lookup, and the store is returned unchanged, so
the content and isEdited fields of every document are untouched. -/
theorem empty_content_edit_rejected
    (s : Store) (userId tid cid : String) (content : Option String)
    (h : jsTrim (content.getD "") = "") :
    editTweetHandler s userId tid content = (s, EditResult.emptyContent)
    ∧ editCommentHandler s cid content = (s, EditResult.emptyContent) := by
  unfold editTweetHandler editCommentHandler
  rw [if_pos h, if_pos h]
  exact ⟨rfl, rfl⟩

/-- Witness for claim C7 with whitespace-only content. -/
theorem empty_content_edit_rejected_witness :
    editTweetHandler storeEmpty "ua" "p1" (some "  ") = (storeEmpty, EditResult.emptyContent)
    ∧ editCommentHandler storeEmpty "ct1" (some "  ") = (storeEmpty, EditResult.emptyContent) :=
  empty_content_edit_rejected storeEmpty "ua" "p1" "ct1" (some "  ") (by decide)

/-- Claim C10: an unretweet request by a user who appears in the
retweets array of the target, when no stored tweet has both
retweetedFrom equal to the resolved original and postedBy equal to the
token id of the user, mutates nothing: the handler returns the store
unchanged and produces no success response. -/
theorem unretweet_without_matching_copy_is_noop
    (s : Store) (userName userId tid freshId newTime : String) (nca : Nat) (tweet : Tweet)
    (h1 : findTweetByTime s tid = some tweet)
    (h2 : tweet.retweets.contains userName = true)
    (h3 : s.tweets.find? (fun t =>
        t.retweetedFrom == some (tweet.retweetedFrom.getD tweet.id) && t.postedBy == userId)
      = none) :
    retweetHandler s userName userId tid freshId newTime nca = (s, RetweetResult.noResponse) := by
  have h2m : userName ∈ tweet.retweets := by
    simpa [List.contains, List.elem_iff] using h2
  unfold retweetHandler
  rw [h1]
  simp [h2m, h3]

/-- Witness for claim C10: bob appears in the retweets of the original,
but the copy was stored with postedBy equal to the id of alice, so the
unretweet request of bob is a complete no-op. -/
theorem unretweet_without_matching_copy_is_noop_witness :
    retweetHandler storeW "bob" "ub" "p1" "t9" "p9" 9 = (storeW, RetweetResult.noResponse) :=
  unretweet_without_matching_copy_is_noop storeW "bob" "ub" "p1" "t9" "p9" 9 tweetOW
    (by decide) (by decide) (by decide)

/-!  Lemmas reducing the mutation handlers to their two write layers:
the save of the resolved document followed by the bulk propagation. -/

theorem findTweetByTime_set_comments (s : Store) (cs : List Comment) (k : String) :
    findTweetByTime { s with comments := cs } k = findTweetByTime s k := rfl

theorem findTweetById_set_comments (s : Store) (cs : List Comment) (i : String) :
    findTweetById { s with comments := cs } i = findTweetById s i := rfl

theorem findUserByName_set_comments (s : Store) (cs : List Comment) (n : String) :
    findUserByName { s with comments := cs } n = findUserByName s n := rfl

theorem editTweet_success_tweets
    (s : Store) (userId tid c : String) (tweet originalTweet : Tweet)
    (h0 : ¬ jsTrim c = "")
    (h1 : findTweetByTime s tid = some tweet)
    (h2 : findTweetById s (tweet.retweetedFrom.getD tweet.id) = some originalTweet)
    (h3 : originalTweet.postedBy = userId) :
    ((editTweetHandler s userId tid (some c)).1).tweets
      = (s.tweets.map (fun x => if x.id == tweet.retweetedFrom.getD tweet.id
            then { x with content := c, isEdited := true } else x)).map
          (fun x => if x.retweetedFrom == some (tweet.retweetedFrom.getD tweet.id)
            then { x with content := c, isEdited := true } else x) := by
  have h3b : (originalTweet.postedBy == userId) = true := by simp [h3]
  simp only [editTweetHandler, Option.getD_some, if_neg h0, h1, h2, h3b, if_true,
    updateTweetById, updateTweetsWhere]

theorem likeTweet_tweets
    (s : Store) (userName tid : String) (tweet : Tweet)
    (h1 : findTweetByTime s tid = some tweet) :
    ((likeTweetHandler s userName tid).1).tweets
      = (s.tweets.map (fun x => if x.id == tweet.id
            then likedTweetDoc tweet userName else x)).map
          (fun x => if (x.id == tweet.retweetedFrom.getD tweet.id
               || x.retweetedFrom == some (tweet.retweetedFrom.getD tweet.id))
            then { x with likes := toggleLike tweet.likes userName } else x) := by
  simp only [likeTweetHandler, likedTweetDoc, h1, updateTweetById, updateTweetsWhere]

theorem composeComment_success_tweets
    (s : Store) (username tid content freshCId newTime : String)
    (tweet originalTweet : Tweet) (user : User)
    (h1 : findTweetByTime s tid = some tweet)
    (h2 : findTweetById s (tweet.retweetedFrom.getD tweet.id) = some originalTweet)
    (h3 : findUserByName s username = some user) :
    ((composeCommentHandler s username tid content freshCId newTime).1).tweets
      = (s.tweets.map (fun x => if x.id == tweet.retweetedFrom.getD tweet.id
            then { x with comments := freshCId :: originalTweet.comments } else x)).map
          (fun x => if (x.id == tweet.retweetedFrom.getD tweet.id
               || x.retweetedFrom == some (tweet.retweetedFrom.getD tweet.id))
            then { x with comments := freshCId :: originalTweet.comments } else x) := by
  simp only [composeCommentHandler, findTweetByTime_set_comments,
    findTweetById_set_comments, findUserByName_set_comments, h1, h2, h3,
    updateTweetById, updateTweetsWhere]

/-!  The value a document carries after the save plus propagation
layers, by case analysis on the two write conditions. -/

theorem propagated_edit_value (l : List Tweet) (oid c : String) (t : Tweet)
    (ht : t ∈ (l.map (fun x => if x.id == oid
          then { x with content := c, isEdited := true } else x)).map
        (fun x => if x.retweetedFrom == some oid
          then { x with content := c, isEdited := true } else x))
    (hc : t.id = oid ∨ t.retweetedFrom = some oid) :
    t.content = c ∧ t.isEdited = true := by
  simp only [List.mem_map] at ht
  obtain ⟨a, ⟨x, hx, rfl⟩, rfl⟩ := ht
  by_cases h1c : (x.id == oid) = true
  · rw [if_pos h1c] at hc ⊢
    by_cases h2c : (({ x with content := c, isEdited := true } : Tweet).retweetedFrom
        == some oid) = true
    · rw [if_pos h2c]
      exact ⟨rfl, rfl⟩
    · rw [if_neg h2c]
      exact ⟨rfl, rfl⟩
  · rw [if_neg h1c] at hc ⊢
    by_cases h2c : (x.retweetedFrom == some oid) = true
    · rw [if_pos h2c]
      exact ⟨rfl, rfl⟩
    · rw [if_neg h2c] at hc ⊢
      cases hc with
      | inl hl => exact absurd (by simp [hl]) h1c
      | inr hr => exact absurd (by simp [hr]) h2c

theorem propagated_likes_value (l : List Tweet) (oid : String) (v : List String)
    (g1 : Tweet → Tweet) (t : Tweet)
    (ht : t ∈ (l.map g1).map
        (fun x => if (x.id == oid || x.retweetedFrom == some oid)
          then { x with likes := v } else x))
    (hc : t.id = oid ∨ t.retweetedFrom = some oid) :
    t.likes = v := by
  simp only [List.mem_map] at ht
  obtain ⟨a, ⟨x, hx, rfl⟩, rfl⟩ := ht
  by_cases h2c : ((g1 x).id == oid || (g1 x).retweetedFrom == some oid) = true
  · rw [if_pos h2c]
  · rw [if_neg h2c] at hc ⊢
    cases hc with
    | inl hl => exact absurd (by simp [hl]) h2c
    | inr hr => exact absurd (by simp [hr]) h2c

theorem propagated_comments_value (l : List Tweet) (oid : String) (v : List String)
    (g1 : Tweet → Tweet) (t : Tweet)
    (ht : t ∈ (l.map g1).map
        (fun x => if (x.id == oid || x.retweetedFrom == some oid)
          then { x with comments := v } else x))
    (hc : t.id = oid ∨ t.retweetedFrom = some oid) :
    t.comments = v := by
  simp only [List.mem_map] at ht
  obtain ⟨a, ⟨x, hx, rfl⟩, rfl⟩ := ht
  by_cases h2c : ((g1 x).id == oid || (g1 x).retweetedFrom == some oid) = true
  · rw [if_pos h2c]
  · rw [if_neg h2c] at hc ⊢
    cases hc with
    | inl hl => exact absurd (by simp [hl]) h2c
    | inr hr => exact absurd (by simp [hr]) h2c

/-- Claim C3 as amended: a comment attach and a content edit are
recorded against the canonical original resolved through retweetedFrom,
as the claim states; a like toggle, however, reads and flips membership
in the likes array of the tweet the request targets, even when that
target is a retweet copy, and then overwrites the original and every
copy with the resulting array.  The first conjunct states that after a
comment attach the document carrying the resolved original id holds the
new comment id prepended to the comments of the original; the second
that after an edit the document carrying the resolved original id holds
the new content with isEdited set; the third that after a like toggle
the original and all copies hold exactly the flip of the likes array of
the target. -/
theorem mutations_recorded_against_canonical :
    (∀ (s : Store) (username tid content freshCId newTime : String)
        (tweet originalTweet : Tweet) (user : User),
      findTweetByTime s tid = some tweet →
      findTweetById s (tweet.retweetedFrom.getD tweet.id) = some originalTweet →
      findUserByName s username = some user →
      ∀ t ∈ ((composeCommentHandler s username tid content freshCId newTime).1).tweets,
        t.id = tweet.retweetedFrom.getD tweet.id →
        t.comments = freshCId :: originalTweet.comments)
    ∧ (∀ (s : Store) (userId tid c : String) (tweet originalTweet : Tweet),
      ¬ jsTrim c = "" →
      findTweetByTime s tid = some tweet →
      findTweetById s (tweet.retweetedFrom.getD tweet.id) = some originalTweet →
      originalTweet.postedBy = userId →
      ∀ t ∈ ((editTweetHandler s userId tid (some c)).1).tweets,
        t.id = tweet.retweetedFrom.getD tweet.id →
        t.content = c ∧ t.isEdited = true)
    ∧ (∀ (s : Store) (userName tid : String) (tweet : Tweet),
      findTweetByTime s tid = some tweet →
      ∀ t ∈ ((likeTweetHandler s userName tid).1).tweets,
        (t.id = tweet.retweetedFrom.getD tweet.id
          ∨ t.retweetedFrom = some (tweet.retweetedFrom.getD tweet.id)) →
        t.likes = toggleLike tweet.likes userName) := by
  refine ⟨?_, ?_, ?_⟩
  · intro s username tid content freshCId newTime tweet originalTweet user h1 h2 h3 t ht hid
    rw [composeComment_success_tweets s username tid content freshCId newTime
      tweet originalTweet user h1 h2 h3] at ht
    exact propagated_comments_value _ _ _ _ _ ht (Or.inl hid)
  · intro s userId tid c tweet originalTweet h0 h1 h2 h3 t ht hid
    rw [editTweet_success_tweets s userId tid c tweet originalTweet h0 h1 h2 h3] at ht
    exact propagated_edit_value _ _ _ _ ht (Or.inl hid)
  · intro s userName tid tweet h1 t ht hc
    rw [likeTweet_tweets s userName tid tweet h1] at ht
    exact propagated_likes_value _ _ _ _ _ ht hc

/-- Claim C3 counterexample: the original of alice holds a like by
alice while the copy of bob is stale with an empty likes array.  A like
toggle by alice targeting the copy does not flip membership in the
likes set of the original: alice was in the likes of the original
before the request and is still in them afterwards, because the handler
read the stale likes of the copy, added alice, and overwrote the
original with the result. -/
theorem like_on_stale_copy_counterexample :
    (findTweetById storeC3 "t1").map (fun t => t.likes.contains "alice") = some true
    ∧ (findTweetById (likeTweetHandler storeC3 "alice" "p2").1 "t1").map
        (fun t => t.likes.contains "alice") = some true
    ∧ (likeTweetHandler storeC3 "alice" "p2").2 = LikeResult.ok 1 "deeppink" := by decide

/-- Witness for the amended claim C3 on the concrete two-document
store. -/
theorem mutations_recorded_against_canonical_witness :
    tweetOWcmt.comments = "c9" :: tweetOW.comments
    ∧ (tweetOWedit.content = "new" ∧ tweetOWedit.isEdited = true)
    ∧ tweetOWlike.likes = toggleLike tweetCW.likes "bob" := by
  refine ⟨?_, ?_, ?_⟩
  · exact mutations_recorded_against_canonical.1 storeW "bob" "p1" "hi" "c9" "ct9"
      tweetOW tweetOW userBW (by decide) (by decide) (by decide)
      tweetOWcmt (by decide) (by decide)
  · exact mutations_recorded_against_canonical.2.1 storeW "ua" "p1" "new"
      tweetOW tweetOW (by decide) (by decide) (by decide) (by decide)
      tweetOWedit (by decide) (by decide)
  · exact mutations_recorded_against_canonical.2.2 storeW "bob" "p2"
      tweetCW (by decide) tweetOWlike (by decide) (by decide)

/-- Claim C4: after the propagation triggered by a content edit, a like
toggle, or a comment attach completes, every retweet copy of the
resolved original carries the same patched field values as the
document holding the original id: content and isEdited for an edit,
the likes array for a like, and the comments list, in its stored
order, for a comment attach. -/
theorem propagation_convergence :
    (∀ (s : Store) (userId tid c : String) (tweet originalTweet : Tweet),
      ¬ jsTrim c = "" →
      findTweetByTime s tid = some tweet →
      findTweetById s (tweet.retweetedFrom.getD tweet.id) = some originalTweet →
      originalTweet.postedBy = userId →
      ∀ t ∈ ((editTweetHandler s userId tid (some c)).1).tweets,
      ∀ o ∈ ((editTweetHandler s userId tid (some c)).1).tweets,
        t.retweetedFrom = some (tweet.retweetedFrom.getD tweet.id) →
        o.id = tweet.retweetedFrom.getD tweet.id →
        t.content = o.content ∧ t.isEdited = o.isEdited)
    ∧ (∀ (s : Store) (userName tid : String) (tweet : Tweet),
      findTweetByTime s tid = some tweet →
      ∀ t ∈ ((likeTweetHandler s userName tid).1).tweets,
      ∀ o ∈ ((likeTweetHandler s userName tid).1).tweets,
        t.retweetedFrom = some (tweet.retweetedFrom.getD tweet.id) →
        o.id = tweet.retweetedFrom.getD tweet.id →
        t.likes = o.likes)
    ∧ (∀ (s : Store) (username tid content freshCId newTime : String)
        (tweet originalTweet : Tweet) (user : User),
      findTweetByTime s tid = some tweet →
      findTweetById s (tweet.retweetedFrom.getD tweet.id) = some originalTweet →
      findUserByName s username = some user →
      ∀ t ∈ ((composeCommentHandler s username tid content freshCId newTime).1).tweets,
      ∀ o ∈ ((composeCommentHandler s username tid content freshCId newTime).1).tweets,
        t.retweetedFrom = some (tweet.retweetedFrom.getD tweet.id) →
        o.id = tweet.retweetedFrom.getD tweet.id →
        t.comments = o.comments) := by
  refine ⟨?_, ?_, ?_⟩
  · intro s userId tid c tweet originalTweet h0 h1 h2 h3 t ht o ho hrf hid
    have hkey := editTweet_success_tweets s userId tid c tweet originalTweet h0 h1 h2 h3
    rw [hkey] at ht ho
    have hT := propagated_edit_value _ _ _ _ ht (Or.inr hrf)
    have hO := propagated_edit_value _ _ _ _ ho (Or.inl hid)
    exact ⟨hT.1.trans hO.1.symm, hT.2.trans hO.2.symm⟩
  · intro s userName tid tweet h1 t ht o ho hrf hid
    have hkey := likeTweet_tweets s userName tid tweet h1
    rw [hkey] at ht ho
    have hT := propagated_likes_value _ _ _ _ _ ht (Or.inr hrf)
    have hO := propagated_likes_value _ _ _ _ _ ho (Or.inl hid)
    exact hT.trans hO.symm
  · intro s username tid content freshCId newTime tweet originalTweet user h1 h2 h3 t ht o ho hrf hid
    have hkey := composeComment_success_tweets s username tid content freshCId newTime
      tweet originalTweet user h1 h2 h3
    rw [hkey] at ht ho
    have hT := propagated_comments_value _ _ _ _ _ ht (Or.inr hrf)
    have hO := propagated_comments_value _ _ _ _ _ ho (Or.inl hid)
    exact hT.trans hO.symm

/-- Witness for claim C4 on the concrete two-document store: after
each of the three mutations the updated copy agrees with the updated
original on the patched fields. -/
theorem propagation_convergence_witness :
    (tweetCWedit.content = tweetOWedit.content ∧ tweetCWedit.isEdited = tweetOWedit.isEdited)
    ∧ tweetCWlike.likes = tweetOWlike.likes
    ∧ tweetCWcmt.comments = tweetOWcmt.comments := by
  refine ⟨?_, ?_, ?_⟩
  · exact propagation_convergence.1 storeW "ua" "p1" "new" tweetOW tweetOW
      (by decide) (by decide) (by decide) (by decide)
      tweetCWedit (by decide) tweetOWedit (by decide) (by decide) (by decide)
  · exact propagation_convergence.2.1 storeW "bob" "p2" tweetCW (by decide)
      tweetCWlike (by decide) tweetOWlike (by decide) (by decide) (by decide)
  · exact propagation_convergence.2.2 storeW "bob" "p1" "hi" "c9" "ct9" tweetOW tweetOW userBW
      (by decide) (by decide) (by decide)
      tweetCWcmt (by decide) tweetOWcmt (by decide) (by decide) (by decide)

/-- Claim C8: the feed query returns only tweets with isRetweeted
false, sorted by createdAt descending, it skips the caller-supplied
offset inside the sorted non-retweet list, and it returns at most 20
tweets; the topic query behaves the same under its additional tag
filter. -/
theorem feed_query_spec (s : Store) (skip : Nat) (tag : String) :
    (feedHandler s skip).all (fun t => !t.isRetweeted) = true
    ∧ List.Pairwise tweetNewer (feedHandler s skip)
    ∧ (feedHandler s skip).length ≤ 20
    ∧ feedHandler s skip
        = List.take 20 (List.drop skip (sortNewestFirst (s.tweets.filter (fun t => !t.isRetweeted))))
    ∧ (topicHandler s tag skip).all (fun t => !t.isRetweeted && t.tag == some tag) = true
    ∧ List.Pairwise tweetNewer (topicHandler s tag skip)
    ∧ (topicHandler s tag skip).length ≤ 20 := by
  refine ⟨?_, ?_, ?_, rfl, ?_, ?_, ?_⟩
  · rw [List.all_eq_true]
    intro t ht
    have h1 : t ∈ sortNewestFirst (s.tweets.filter (fun t => !t.isRetweeted)) :=
      List.drop_subset _ _ (List.take_subset _ _ ht)
    have h2 : t ∈ s.tweets.filter (fun t => !t.isRetweeted) :=
      (List.perm_insertionSort tweetNewer _).subset h1
    exact (List.mem_filter.mp h2).2
  · have hs : List.Pairwise tweetNewer (sortNewestFirst (s.tweets.filter (fun t => !t.isRetweeted))) :=
      List.sorted_insertionSort tweetNewer _
    exact hs.sublist ((List.take_sublist _ _).trans (List.drop_sublist _ _))
  · exact List.length_take_le _ _
  · rw [List.all_eq_true]
    intro t ht
    have h1 : t ∈ sortNewestFirst (s.tweets.filter (fun t => !t.isRetweeted && t.tag == some tag)) :=
      List.drop_subset _ _ (List.take_subset _ _ ht)
    have h2 : t ∈ s.tweets.filter (fun t => !t.isRetweeted && t.tag == some tag) :=
      (List.perm_insertionSort tweetNewer _).subset h1
    exact (List.mem_filter.mp h2).2
  · have hs : List.Pairwise tweetNewer
        (sortNewestFirst (s.tweets.filter (fun t => !t.isRetweeted && t.tag == some tag))) :=
      List.sorted_insertionSort tweetNewer _
    exact hs.sublist ((List.take_sublist _ _).trans (List.drop_sublist _ _))
  · exact List.length_take_le _ _

/-!  Lemmas about the stores produced by the retweet branch. -/

theorem updateUserByName_tweets (s : Store) (n : String) (f : User → User) :
    (updateUserByName s n f).tweets = s.tweets := by
  unfold updateUserByName
  cases s.users.find? (fun u => u.username == n) <;> rfl

theorem updateUserByName_of_none (s : Store) (n : String) (f : User → User)
    (h : findUserByName s n = none) : updateUserByName s n f = s := by
  unfold updateUserByName
  unfold findUserByName at h
  rw [h]

theorem findUserByName_updateUserByName (s : Store) (n : String) (f : User → User) (u : User)
    (hf : ∀ v, (f v).username = v.username)
    (hu : findUserByName s n = some u) :
    findUserByName (updateUserByName s n f) n = some (f u) := by
  unfold findUserByName updateUserByName at *
  rw [hu]
  exact findUser_after_update s.users n u f hf hu

theorem findUserByName_updateTweetById (s : Store) (i : String) (f : Tweet → Tweet) (n : String) :
    findUserByName (updateTweetById s i f) n = findUserByName s n := rfl

theorem findTweetById_after_retweet_writes
    (base : List Tweet) (newTweet : Tweet) (s2 : Store) (oid freshId : String)
    (ft : Tweet → Tweet)
    (hft : ∀ t, (ft t).id = t.id)
    (hs2 : s2.tweets = base ++ [newTweet])
    (hbase : ∀ t ∈ base, t.id ≠ freshId)
    (hnew : newTweet.id = freshId)
    (hne : ¬ freshId = oid) :
    findTweetById (updateTweetById s2 oid ft) freshId = some newTweet := by
  show ((s2.tweets.map (fun t => if t.id == oid then ft t else t)).find?
      (fun t => t.id == freshId)) = some newTweet
  rw [hs2]
  rw [find?_map_congr (fun t => t.id == freshId) (fun t => if t.id == oid then ft t else t)
    (by
      intro a
      by_cases h : (a.id == oid) = true
      · simp [h, hft]
      · simp [h])]
  rw [find?_append_left_none _ _ _
    (List.find?_eq_none.mpr (fun x hx => by simpa using hbase x hx))]
  rw [List.find?_cons_of_pos _ (by simp [hnew])]
  show some (if newTweet.id == oid then ft newTweet else newTweet) = some newTweet
  rw [if_neg (by simp [hnew, hne])]

/-- Claim C9: a successful retweet stores a copy whose postedBy is the
postedBy of the original tweet, not the id of the requesting user; the
requesting user only appears in the snapshotted retweets array of the
copy, appended at its end, and the id of the copy is prepended to the
post list of the requesting user.  The hypotheses state that the
target is an original (isRetweeted false, no retweetedFrom), that the
user has not yet retweeted it, and that the store-assigned id of the
new document is fresh. -/
theorem retweet_copy_author_is_original_author
    (s : Store) (userName userId tid freshId newTime : String) (nca : Nat) (tweet : Tweet)
    (h1 : findTweetByTime s tid = some tweet)
    (h2 : tweet.retweets.contains userName = false)
    (h3 : tweet.isRetweeted = false)
    (h4 : tweet.retweetedFrom = none)
    (h5 : ∀ t ∈ s.tweets, t.id ≠ freshId) :
    (retweetHandler s userName userId tid freshId newTime nca).2
        = RetweetResult.retweeted (tweet.retweets.length + 1)
    ∧ (findTweetById (retweetHandler s userName userId tid freshId newTime nca).1 freshId).map
        Tweet.postedBy = some tweet.postedBy
    ∧ (findTweetById (retweetHandler s userName userId tid freshId newTime nca).1 freshId).map
        Tweet.retweets = some (tweet.retweets ++ [userName])
    ∧ (findTweetById (retweetHandler s userName userId tid freshId newTime nca).1 freshId).map
        Tweet.isRetweeted = some true
    ∧ (findTweetById (retweetHandler s userName userId tid freshId newTime nca).1 freshId).map
        Tweet.retweetedFrom = some (some tweet.id)
    ∧ (findUserByName (retweetHandler s userName userId tid freshId newTime nca).1 userName).map
        User.tweets = (findUserByName s userName).map (fun u => freshId :: u.tweets) := by
  have h2m : userName ∉ tweet.retweets := by
    intro hmem
    rw [contains_eq_true_of_mem hmem] at h2
    cases h2
  have htid : tweet.id ≠ freshId := h5 tweet (List.mem_of_find?_eq_some h1)
  have key : retweetHandler s userName userId tid freshId newTime nca
      = (updateTweetById
          (updateUserByName
            { s with tweets :=
                s.tweets ++ [mkRetweetCopy tweet userName tweet.id freshId newTime nca] }
            userName (fun u => { u with tweets := freshId :: u.tweets }))
          tweet.id (fun t => { t with retweets := t.retweets ++ [userName] }),
        RetweetResult.retweeted (tweet.retweets.length + 1)) := by
    simp only [retweetHandler, h1, h4, Option.getD_none]
    simp [h2m, h3]
  have hfind : findTweetById (retweetHandler s userName userId tid freshId newTime nca).1 freshId
      = some (mkRetweetCopy tweet userName tweet.id freshId newTime nca) := by
    rw [key]
    exact findTweetById_after_retweet_writes s.tweets
      (mkRetweetCopy tweet userName tweet.id freshId newTime nca) _ tweet.id freshId _
      (fun t => rfl) (updateUserByName_tweets _ _ _) h5 rfl (fun h => htid h.symm)
  refine ⟨by rw [key], ?_, ?_, ?_, ?_, ?_⟩
  · rw [hfind]
    rfl
  · rw [hfind]
    rfl
  · rw [hfind]
    rfl
  · rw [hfind]
    rfl
  · cases hu : findUserByName s userName with
    | none =>
      have hu1 : findUserByName
          { s with tweets :=
              s.tweets ++ [mkRetweetCopy tweet userName tweet.id freshId newTime nca] }
          userName = none := hu
      rw [key, findUserByName_updateTweetById, updateUserByName_of_none _ _ _ hu1, hu1]
      rfl
    | some u =>
      have hu1 : findUserByName
          { s with tweets :=
              s.tweets ++ [mkRetweetCopy tweet userName tweet.id freshId newTime nca] }
          userName = some u := hu
      rw [key, findUserByName_updateTweetById,
        findUserByName_updateUserByName _ _ (fun u => { u with tweets := freshId :: u.tweets })
          u (fun v => rfl) hu1]
      rfl

/-- Witness for claim C9: the retweet of bob on the original of alice
creates the copy with postedBy equal to the id of alice. -/
theorem retweet_copy_author_witness :
    (retweetHandler store0 "bob" "ub" "p1" "t2" "p2" 2).2 = RetweetResult.retweeted (tweetO0.retweets.length + 1)
    ∧ (findTweetById (retweetHandler store0 "bob" "ub" "p1" "t2" "p2" 2).1 "t2").map
        Tweet.postedBy = some tweetO0.postedBy
    ∧ (findTweetById (retweetHandler store0 "bob" "ub" "p1" "t2" "p2" 2).1 "t2").map
        Tweet.retweets = some (tweetO0.retweets ++ ["bob"])
    ∧ (findTweetById (retweetHandler store0 "bob" "ub" "p1" "t2" "p2" 2).1 "t2").map
        Tweet.isRetweeted = some true
    ∧ (findTweetById (retweetHandler store0 "bob" "ub" "p1" "t2" "p2" 2).1 "t2").map
        Tweet.retweetedFrom = some (some tweetO0.id)
    ∧ (findUserByName (retweetHandler store0 "bob" "ub" "p1" "t2" "p2" 2).1 "bob").map
        User.tweets = (findUserByName store0 "bob").map (fun u => "t2" :: u.tweets) :=
  retweet_copy_author_is_original_author store0 "bob" "ub" "p1" "t2" "p2" 2 tweetO0
    (by decide) (by decide) (by decide) (by decide) (by decide)
